import Mathlib

/-!
Verification of the Unit-of-Work / repository data-access layer.

The development shallowly embeds the Python source:
  adapters/uow.py        — PgSQLAlchemyUnitOfWork (atomic scopes, escape hatches,
                           repository lookup)
  adapters/repository.py — BaseRepository (select projections, dedup fetch,
                           pagination, inserts)
  entities/base.py       — PgBaseModel (from_dict, update)

Sessions are modelled by the trace of transactional events they receive
(commit / rollback / close); store results are ordered row lists; Python
exceptions are an explicit error type threaded through `Except`.
-/

/-- Python exceptions observable at this layer.  The first four constructors
are what the embedded code can actually raise; the last four are the error
kinds named by the design documents, present so that statements about them
can be expressed. -/
inductive PyErr where
  | callerExc : Nat → PyErr
  | typeErrorNoneNotCallable : PyErr
  | attributeErrorNone : String → PyErr
  | storeErr : Nat → PyErr
  | noActiveSessionError : PyErr
  | repositoryNotFoundError : PyErr
  | invalidPaginationError : PyErr
  | storeOperationError : PyErr → PyErr
  deriving DecidableEq, Repr

/-- Transactional events issued to the bound session by a Unit-of-Work scope. -/
inductive SessEvent where
  | commit
  | rollback
  | close
  deriving DecidableEq, Repr

namespace Uow

/-- Embeds `PgSQLAlchemyUnitOfWork.atomic` (uow.py lines 46-60).  The caller
body's outcome is `body` (normal value or raised exception).  Mirrors the
source control flow: on normal return commit unless `read_only`; on an
exception roll back and re-raise the same exception; the surrounding
`async with` over the scoped session closes the session on every exit path.
Returns the scope's outcome together with the event trace sent to the
session, in order. -/
def atomic (read_only : Bool) (body : Except PyErr α) :
    Except PyErr α × List SessEvent :=
  let inner : Except PyErr α × List SessEvent :=
    match body with
    | .ok v => (.ok v, if read_only then [] else [SessEvent.commit])
    | .error e => (.error e, [SessEvent.rollback])
  (inner.1, inner.2 ++ [SessEvent.close])

/-- Store state seen through one session: durably committed writes plus the
writes staged in the open transaction. -/
structure DbState where
  durable : List Nat
  pending : List Nat
  deriving DecidableEq, Repr

/-- Effect of one session event on the store state: `commit` makes the staged
writes durable; `rollback` discards them; `close` ends the transaction,
discarding anything still staged. -/
def stepEvent (s : DbState) : SessEvent → DbState
  | .commit => ⟨s.durable ++ s.pending, []⟩
  | .rollback => ⟨s.durable, []⟩
  | .close => ⟨s.durable, []⟩

/-- Durable store contents after running one `atomic` scope whose caller body
stages the writes `ws` and finishes with outcome `res`, starting from durable
state `init`. -/
def runAtomicScope (read_only : Bool) (ws : List Nat) (res : Except PyErr Unit)
    (init : List Nat) : List Nat :=
  ((atomic read_only res).2.foldl stepEvent ⟨init, ws⟩).durable

/-- Embeds `PgSQLAlchemyUnitOfWork.__init__` (uow.py line 20): the freshly
constructed Unit of Work has no bound session. -/
def initSession : Option Nat := none

/-- Embeds the explicit `commit` escape hatch (uow.py lines 82-83):
`await self._session.commit()`.  When no session is bound, `self._session`
is `None` and attribute access on `None` raises `AttributeError`. -/
def commitHatch (sess : Option Nat) : Except PyErr Unit :=
  match sess with
  | none => .error (.attributeErrorNone "commit")
  | some _ => .ok ()

/-- Embeds the explicit `rollback` escape hatch (uow.py lines 85-86). -/
def rollbackHatch (sess : Option Nat) : Except PyErr Unit :=
  match sess with
  | none => .error (.attributeErrorNone "rollback")
  | some _ => .ok ()

/-- A repository instance as produced by the registry: it records the session
bound into it at construction. -/
structure RepoInst where
  sess : Option Nat
  deriving DecidableEq, Repr

/-- Python `dict.get`: `None` when the key is absent. -/
def dictGet (m : List (String × α)) (k : String) : Option α :=
  (m.find? (fun kv => kv.1 == k)).map (·.2)

/-- Calling a possibly-`None` constructor: Python raises `TypeError`
("NoneType object is not callable") when the callee is `None`. -/
def pyCallCtor (f : Option (Option Nat → RepoInst)) (s : Option Nat) :
    Except PyErr RepoInst :=
  match f with
  | none => .error .typeErrorNoneNotCallable
  | some ctor => .ok (ctor s)

/-- Embeds `PgSQLAlchemyUnitOfWork.get_repository` (uow.py lines 88-91):
`self._repositories.get(name)` followed by a call of the result on the
bound session, with no presence check in between. -/
def get_repository (repos : List (String × (Option Nat → RepoInst)))
    (sess : Option Nat) (name : String) : Except PyErr RepoInst :=
  pyCallCtor (dictGet repos name) sess

end Uow

/-- An entity row as a repository sees it: a primary key plus the rest of the
record, abstracted to a number. -/
structure Entity where
  pk : Nat
  payload : Nat
  deriving DecidableEq, Repr

namespace Repo

/-- The store's execution of a SELECT carrying `LIMIT lim OFFSET off` over a
deterministic-ordered result set `rows`.  PostgreSQL rejects negative LIMIT
or OFFSET with a driver error; otherwise it drops `off` rows and returns at
most `lim`. -/
def sqlLimitOffset (rows : List α) (lim off : Int) : Except PyErr (List α) :=
  if lim < 0 then .error (.storeErr 1)
  else if off < 0 then .error (.storeErr 2)
  else .ok ((rows.drop off.toNat).take lim.toNat)

/-- Embeds `BaseRepository.run_select_stmt_for_all` (repository.py lines
46-48) applied to a statement whose store outcome is `exec`: the rows are
returned as-is, and a store failure propagates (the source has no
try/except). -/
def run_select_stmt_for_all (exec : Except PyErr (List α)) :
    Except PyErr (List α) :=
  exec.bind (fun rows => .ok rows)

/-- Embeds `BaseRepository.paginated_select_entity` (repository.py lines
82-86) over a deterministic-ordered result set: `_offset = (page_number - 1)
* page_size`, `_limit = page_size`, applied to the statement with no
validation of either argument. -/
def paginated_select_entity (rows : List α) (page_size page_number : Int) :
    Except PyErr (List α) :=
  let _offset := (page_number - 1) * page_size
  let _limit := page_size
  run_select_stmt_for_all (sqlLimitOffset rows _limit _offset)

/-- First-occurrence deduplication by primary key, accumulating the keys
already seen.  This is the effect of SQLAlchemy's `Result.unique()` on
entity rows: the session's identity map keys entities by primary key, and
`unique()` keeps each one's first row, preserving order. -/
def uniqueGo : List Entity → List Nat → List Entity
  | [], _ => []
  | e :: rest, seen =>
      if e.pk ∈ seen then uniqueGo rest seen
      else e :: uniqueGo rest (e.pk :: seen)

/-- Embeds `BaseRepository.run_select_stmt_for_all_with_unique_entity`
(repository.py lines 67-70): `_result.unique().all()` followed by taking
each row's entity. -/
def run_select_stmt_for_all_with_unique_entity
    (exec : Except PyErr (List Entity)) : Except PyErr (List Entity) :=
  exec.bind (fun rows => .ok (uniqueGo rows []))

/-- Embeds `BaseRepository.paginated_select_with_unique_entity`
(repository.py lines 88-93): same offset/limit computation, no validation,
then the deduplicating fetch. -/
def paginated_select_with_unique_entity (rows : List Entity)
    (page_size page_number : Int) : Except PyErr (List Entity) :=
  let _offset := (page_number - 1) * page_size
  let _limit := page_size
  run_select_stmt_for_all_with_unique_entity (sqlLimitOffset rows _limit _offset)

/-- Page count `ceil N / p` used by the coverage property. -/
def pageCount (p N : Nat) : Nat := (N + p - 1) / p

/-- The i-th (0-based) chunk of size `p` of a list. -/
def chunkAt (rows : List α) (p i : Nat) : List α := (rows.drop (i * p)).take p

/-- Fetching pages `1..pageCount` through `paginated_select_entity`,
collecting the results; `none` if any page fails. -/
def fetchAllPages (rows : List α) (p : Nat) : Option (List (List α)) :=
  (List.range (pageCount p rows.length)).mapM
    (fun i => (paginated_select_entity rows (p : Int) ((i + 1 : Nat) : Int)).toOption)

/-- Embeds `BaseRepository.run_select_stmt_for_one` (repository.py lines
42-44): execute, then `result.scalar()` — the first row's entity, or `None`
when there are no rows.  A store failure during execute propagates unchanged
(the source has no try/except anywhere). -/
def run_select_stmt_for_one (exec : Except PyErr (List α)) :
    Except PyErr (Option α) :=
  exec.bind (fun rows => .ok rows.head?)

/-- Embeds `BaseRepository._insert_instance` (repository.py lines 35-40):
`db.add(instance)`, `await db.commit()`, `await db.refresh(instance)`,
return the instance.  A failure of the commit or refresh round-trip
propagates unchanged. -/
def insert_instance (inst : Entity) (commitRes refreshRes : Except PyErr Unit) :
    Except PyErr Entity :=
  commitRes.bind (fun _ => refreshRes.bind (fun _ => .ok inst))

/-- Whether an error carries the `StoreOperationError` wrapper kind. -/
def isStoreOperationError : PyErr → Bool
  | .storeOperationError _ => true
  | _ => false

end Repo

namespace PgBaseModel

/-- The entity class as `hasattr` sees it: the set of known attribute names. -/
structure ModelCls where
  attrs : List String

/-- Embeds `PgBaseModel.from_dict` (entities/base.py lines 100-103): keep the
pairs of the mapping whose value is not `None` and whose key is an attribute
of the class, and build the instance from exactly those keyword arguments. -/
def from_dict (cls : ModelCls) (data : List (String × Option Int)) :
    List (String × Option Int) :=
  data.filter (fun kv => kv.2.isSome && cls.attrs.contains kv.1)

/-- The attribute store of one Python object. -/
abbrev Fields := String → Int

/-- Python `setattr self k v`. -/
def setField (f : Fields) (k : String) (v : Int) : Fields :=
  fun x => if x = k then v else f x

/-- The for-loop of `update`: apply each keyword assignment in order. -/
def applyKwargs (f : Fields) : List (String × Int) → Fields
  | [] => f
  | kv :: rest => applyKwargs (setField f kv.1 kv.2) rest

/-- A heap of objects addressed by identity, so that returning "the very same
instance" is expressible. -/
structure Heap where
  objs : Nat → Fields

/-- Embeds `PgBaseModel.update` (entities/base.py lines 94-98): in-place
`setattr` of every payload pair on `self`, then `return self`.  The result is
the updated heap together with the reference the method returns. -/
def update (h : Heap) (self : Nat) (kwargs : List (String × Int)) :
    Heap × Nat :=
  (⟨fun a => if a = self then applyKwargs (h.objs a) kwargs else h.objs a⟩,
    self)

end PgBaseModel

/-- C1: inside an `atomic` scope, a caller exception is rolled back and
re-raised unchanged (never swallowed), and the session is closed on every
exit path, normal or exceptional. -/
theorem uow_atomic_reraises_and_closes (α : Type) (ro : Bool) (e : PyErr) :
    (Uow.atomic (α := α) ro (.error e)).1 = Except.error e ∧
    SessEvent.rollback ∈ (Uow.atomic (α := α) ro (.error e)).2 ∧
    ∀ body : Except PyErr α, SessEvent.close ∈ (Uow.atomic ro body).2 := by
  refine ⟨rfl, by simp [Uow.atomic], ?_⟩
  intro body
  cases body <;> simp [Uow.atomic]

/-- C4: a read-only `atomic` scope that returns normally commits nothing
(writes staged in the transaction are not durable after the scope closes),
while a read-write scope that returns normally makes them durable. -/
theorem uow_atomic_read_only_commit_behaviour (ws init : List Nat) :
    Uow.runAtomicScope true ws (.ok ()) init = init ∧
    Uow.runAtomicScope false ws (.ok ()) init = init ++ ws := by
  constructor <;> rfl

/-- C2 counterexample: a paginated fetch with page size 0 (and page number 1)
does not fail at all — it succeeds with an empty page — so it does not fail
with an `InvalidPaginationError` kind. -/
theorem paginated_no_validation_cex :
    Repo.paginated_select_entity ([1, 2, 3] : List Nat) 0 1 = Except.ok [] := by
  rfl

/-- The only outcomes of the store's limit/offset execution: a driver error
for a negative bound, or an ordered slice of the rows. -/
theorem sqlLimitOffset_cases (rows : List α) (lim off : Int) :
    Repo.sqlLimitOffset rows lim off = Except.error (.storeErr 1) ∨
    Repo.sqlLimitOffset rows lim off = Except.error (.storeErr 2) ∨
    ∃ l, Repo.sqlLimitOffset rows lim off = Except.ok l := by
  unfold Repo.sqlLimitOffset
  split_ifs <;> simp

/-- C2 amended: the paginated fetches perform no validation of page size or
page number — they never produce an `InvalidPaginationError` kind, and page
size 0 simply succeeds with an empty page for every page number. -/
theorem paginated_never_invalid_pagination (rows : List Nat)
    (erows : List Entity) (p n : Int) :
    Repo.paginated_select_entity rows p n ≠
      Except.error PyErr.invalidPaginationError ∧
    Repo.paginated_select_with_unique_entity erows p n ≠
      Except.error PyErr.invalidPaginationError ∧
    Repo.paginated_select_entity rows 0 n = Except.ok [] := by
  refine ⟨?_, ?_, ?_⟩
  · unfold Repo.paginated_select_entity Repo.run_select_stmt_for_all
    rcases sqlLimitOffset_cases rows p ((n - 1) * p) with h | h | ⟨l, h⟩ <;>
      simp [h, Except.bind]
  · unfold Repo.paginated_select_with_unique_entity
      Repo.run_select_stmt_for_all_with_unique_entity
    rcases sqlLimitOffset_cases erows p ((n - 1) * p) with h | h | ⟨l, h⟩ <;>
      simp [h, Except.bind]
  · unfold Repo.paginated_select_entity Repo.run_select_stmt_for_all
      Repo.sqlLimitOffset
    simp [Except.bind]

/-- C3 counterexample: requesting a repository type from an empty registry
fails with the `TypeError` raised by calling `None`, not with a
`RepositoryNotFoundError` kind. -/
theorem get_repository_missing_cex :
    Uow.get_repository [] none "UserRepository" =
      Except.error PyErr.typeErrorNoneNotCallable ∧
    PyErr.typeErrorNoneNotCallable ≠ PyErr.repositoryNotFoundError := by
  exact ⟨rfl, by decide⟩

/-- C3 amended: for every repository type absent from the registry,
`get_repository` does fail (never silently returns a handle), but with the
generic `TypeError` from invoking the absent (`None`) constructor, not with
a `RepositoryNotFoundError` kind. -/
theorem get_repository_missing_raises_type_error
    (repos : List (String × (Option Nat → Uow.RepoInst)))
    (sess : Option Nat) (name : String)
    (habsent : Uow.dictGet repos name = none) :
    Uow.get_repository repos sess name =
      Except.error PyErr.typeErrorNoneNotCallable := by
  unfold Uow.get_repository Uow.pyCallCtor
  rw [habsent]

/-- Witness for the amended C3 at a concrete registry. -/
theorem get_repository_missing_raises_type_error_witness :
    Uow.dictGet ([] : List (String × (Option Nat → Uow.RepoInst))) "OrderRepo"
        = none ∧
    Uow.get_repository [] none "OrderRepo" =
      Except.error PyErr.typeErrorNoneNotCallable :=
  ⟨rfl, get_repository_missing_raises_type_error [] none "OrderRepo" rfl⟩

/-- C7 counterexample: on a freshly constructed Unit of Work (no bound
session), the explicit `commit()` escape hatch fails with the
`AttributeError` from accessing `.commit` on `None`, not with a
`NoActiveSessionError` kind. -/
theorem commit_no_session_cex :
    Uow.commitHatch Uow.initSession =
      Except.error (PyErr.attributeErrorNone "commit") ∧
    PyErr.attributeErrorNone "commit" ≠ PyErr.noActiveSessionError := by
  exact ⟨rfl, by decide⟩

/-- Splitting a list into `pageCount` chunks of size `p` and concatenating
them gives back the list. -/
theorem chunks_join (p : Nat) (hp : 0 < p) :
    ∀ (N : Nat) (l : List Nat), l.length = N →
      ((List.range (Repo.pageCount p N)).map (Repo.chunkAt l p)).flatten = l := by
  intro N
  induction N using Nat.strong_induction_on with
  | _ N ih =>
    intro l hlen
    cases l with
    | nil =>
      have hN : N = 0 := by simpa using hlen.symm
      subst hN
      have h0 : Repo.pageCount p 0 = 0 := by
        unfold Repo.pageCount
        exact Nat.div_eq_of_lt (by omega)
      simp [h0]
    | cons a t =>
      have hN : 1 ≤ N := by
        have := hlen ▸ (List.length_cons a t)
        omega
      have hpc : Repo.pageCount p N = (N - 1) / p + 1 := by
        unfold Repo.pageCount
        have h1 : N + p - 1 = (N - 1) + p := by omega
        rw [h1, Nat.add_div_right _ hp]
      have hpc2 : Repo.pageCount p ((a :: t).drop p).length = (N - 1) / p := by
        rw [List.length_drop, hlen]
        unfold Repo.pageCount
        rcases le_or_lt N p with h | h
        · have h1 : N - p = 0 := by omega
          rw [h1]
          rw [Nat.div_eq_of_lt (by omega : 0 + p - 1 < p)]
          exact (Nat.div_eq_of_lt (by omega : N - 1 < p)).symm
        · have h1 : N - p + p - 1 = N - 1 := by omega
          rw [h1]
      have hih := ih (((a :: t).drop p).length)
        (by rw [List.length_drop, hlen]; omega) ((a :: t).drop p) rfl
      rw [hpc2] at hih
      rw [hpc, List.range_succ_eq_map, List.map_cons, List.map_map,
        List.flatten_cons]
      have hshift : ((List.range ((N - 1) / p)).map
          (Repo.chunkAt (a :: t) p ∘ Nat.succ)) =
          (List.range ((N - 1) / p)).map (Repo.chunkAt ((a :: t).drop p) p) := by
        apply List.map_congr_left
        intro i _
        show Repo.chunkAt (a :: t) p (i + 1) = Repo.chunkAt ((a :: t).drop p) p i
        unfold Repo.chunkAt
        rw [List.drop_drop]
        have hmul : (i + 1) * p = p + i * p := by ring
        rw [hmul]
      rw [hshift, hih]
      show ((a :: t).drop (0 * p)).take p ++ (a :: t).drop p = a :: t
      rw [Nat.zero_mul, List.drop_zero, List.take_append_drop]

/-- Successful `Option`-valued traversal of a list whose images are all
`some`. -/
theorem mapM_option_of_eq {α β : Type} (f : α → Option β) (g : α → β) :
    ∀ xs : List α, (∀ x ∈ xs, f x = some (g x)) →
      xs.mapM f = some (xs.map g) := by
  intro xs
  induction xs with
  | nil => intro; rfl
  | cons a t iht =>
    intro h
    rw [List.mapM_cons, h a (List.mem_cons_self a t),
      iht (fun x hx => h x (List.mem_cons_of_mem a hx))]
    rfl

/-- Evaluation of one page fetch at a positive 1-indexed page number:
offset `(n-1)*p`, limit `p`. -/
theorem paginated_page_eval (rows : List Nat) (p i : Nat) :
    Repo.paginated_select_entity rows (p : Int) ((i + 1 : Nat) : Int) =
      Except.ok (Repo.chunkAt rows p i) := by
  unfold Repo.paginated_select_entity Repo.run_select_stmt_for_all
    Repo.sqlLimitOffset Repo.chunkAt
  have h1 : (((i + 1 : Nat) : Int) - 1) * (p : Int) = ((i * p : Nat) : Int) := by
    push_cast
    ring
  rw [h1]
  dsimp only
  rw [if_neg (by omega : ¬ ((p : Int) < 0))]
  rw [if_neg (by omega : ¬ (((i * p : Nat) : Int) < 0))]
  simp [Except.bind]
  norm_cast

/-- C5: with positive page size `p`, each 1-indexed page `n` is the slice at
offset `(n-1)*p` of length at most `p`, and fetching pages `1..ceil(N/p)`
and concatenating yields exactly the original rows, in order, with no
duplicates and no omissions. -/
theorem paginated_pages_cover_rows (rows : List Nat) (p : Nat) (hp : 0 < p) :
    (∀ n : Nat, Repo.paginated_select_entity rows (p : Int)
        ((n + 1 : Nat) : Int) = Except.ok ((rows.drop (n * p)).take p)) ∧
    ∃ pages : List (List Nat),
      Repo.fetchAllPages rows p = some pages ∧ pages.flatten = rows := by
  constructor
  · intro n
    exact paginated_page_eval rows p n
  · refine ⟨(List.range (Repo.pageCount p rows.length)).map
      (Repo.chunkAt rows p), ?_, ?_⟩
    · unfold Repo.fetchAllPages
      apply mapM_option_of_eq
      intro i _
      rw [paginated_page_eval rows p i]
      rfl
    · exact chunks_join p hp rows.length rows rfl

/-- Witness for C5 at five rows and page size two (three pages). -/
theorem paginated_pages_cover_rows_witness :
    (∀ n : Nat, Repo.paginated_select_entity [10, 20, 30, 40, 50] ((2 : Nat) : Int)
        ((n + 1 : Nat) : Int) =
        Except.ok (([10, 20, 30, 40, 50].drop (n * 2)).take 2)) ∧
    ∃ pages : List (List Nat),
      Repo.fetchAllPages [10, 20, 30, 40, 50] 2 = some pages ∧
        pages.flatten = [10, 20, 30, 40, 50] :=
  paginated_pages_cover_rows [10, 20, 30, 40, 50] 2 (by decide)

/-- C7 amended: with no active scope (no bound session), `commit()` and
`rollback()` do fail, but with the `AttributeError` from attribute access on
the absent (`None`) session, not with a `NoActiveSessionError` kind. -/
theorem escape_hatches_raise_attribute_error :
    Uow.commitHatch Uow.initSession =
      Except.error (PyErr.attributeErrorNone "commit") ∧
    Uow.rollbackHatch Uow.initSession =
      Except.error (PyErr.attributeErrorNone "rollback") := by
  exact ⟨rfl, rfl⟩

/-- The deduplicating fetch keeps rows in their original relative order. -/
theorem uniqueGo_sublist :
    ∀ (rows : List Entity) (seen : List Nat),
      (Repo.uniqueGo rows seen).Sublist rows := by
  intro rows
  induction rows with
  | nil => intro seen; exact List.Sublist.refl []
  | cons e rest ih =>
    intro seen
    unfold Repo.uniqueGo
    by_cases h : e.pk ∈ seen
    · rw [if_pos h]
      exact (ih seen).cons e
    · rw [if_neg h]
      exact (ih (e.pk :: seen)).cons₂ e

/-- The deduplicating fetch keeps the first occurrence of each key not
already seen. -/
theorem uniqueGo_find (k : Nat) :
    ∀ (rows : List Entity) (seen : List Nat), k ∉ seen →
      (Repo.uniqueGo rows seen).find? (fun e => e.pk == k) =
        rows.find? (fun e => e.pk == k) := by
  intro rows
  induction rows with
  | nil => intro seen _; rfl
  | cons e rest ih =>
    intro seen hk
    unfold Repo.uniqueGo
    by_cases h : e.pk ∈ seen
    · rw [if_pos h]
      have hne : (e.pk == k) = false := by
        apply beq_eq_false_iff_ne.mpr
        intro hEq
        exact hk (hEq ▸ h)
      simp only [List.find?_cons, hne]
      exact ih seen hk
    · rw [if_neg h]
      by_cases hek : e.pk = k
      · have htr : (e.pk == k) = true := beq_iff_eq.mpr hek
        simp only [List.find?_cons, htr]
      · have hne : (e.pk == k) = false := beq_eq_false_iff_ne.mpr hek
        simp only [List.find?_cons, hne]
        apply ih
        intro hmem
        rcases List.mem_cons.mp hmem with h1 | h1
        · exact hek h1.symm
        · exact hk h1

/-- Keys already seen are dropped entirely by the deduplicating fetch. -/
theorem uniqueGo_filter_seen (k : Nat) :
    ∀ (rows : List Entity) (seen : List Nat), k ∈ seen →
      (Repo.uniqueGo rows seen).filter (fun e => e.pk == k) = [] := by
  intro rows
  induction rows with
  | nil => intro seen _; rfl
  | cons e rest ih =>
    intro seen hk
    unfold Repo.uniqueGo
    by_cases h : e.pk ∈ seen
    · rw [if_pos h]
      exact ih seen hk
    · rw [if_neg h]
      have hne : (e.pk == k) = false := by
        apply beq_eq_false_iff_ne.mpr
        intro hEq
        exact h (hEq ▸ hk)
      rw [List.filter_cons, hne]
      simp only [Bool.false_eq_true, if_false]
      exact ih (e.pk :: seen) (List.mem_cons_of_mem _ hk)

/-- A key that occurs in the rows and is not yet seen survives the
deduplicating fetch exactly once. -/
theorem uniqueGo_filter_once (k : Nat) :
    ∀ (rows : List Entity) (seen : List Nat), k ∉ seen →
      k ∈ rows.map Entity.pk →
      ((Repo.uniqueGo rows seen).filter (fun e => e.pk == k)).length = 1 := by
  intro rows
  induction rows with
  | nil =>
    intro seen _ hmem
    simp at hmem
  | cons e rest ih =>
    intro seen hk hmem
    unfold Repo.uniqueGo
    by_cases h : e.pk ∈ seen
    · rw [if_pos h]
      have hek : e.pk ≠ k := fun hEq => hk (hEq ▸ h)
      have hmem2 : k ∈ rest.map Entity.pk := by
        rw [List.map_cons] at hmem
        rcases List.mem_cons.mp hmem with h1 | h1
        · exact absurd h1.symm hek
        · exact h1
      exact ih seen hk hmem2
    · rw [if_neg h]
      by_cases hek : e.pk = k
      · subst hek
        have h0 := uniqueGo_filter_seen e.pk rest (e.pk :: seen)
          (List.mem_cons_self _ _)
        rw [List.filter_cons, beq_self_eq_true, if_pos rfl, h0]
        rfl
      · have hne : (e.pk == k) = false := beq_eq_false_iff_ne.mpr hek
        rw [List.filter_cons, hne]
        simp only [Bool.false_eq_true, if_false]
        apply ih (e.pk :: seen)
        · intro hmem3
          rcases List.mem_cons.mp hmem3 with h1 | h1
          · exact hek h1.symm
          · exact hk h1
        · rw [List.map_cons] at hmem
          rcases List.mem_cons.mp hmem with h1 | h1
          · exact absurd h1.symm hek
          · exact h1

/-- C6: when the same primary key occurs several times (possibly
non-contiguously) in a result, the deduplicated fetch returns that entity
exactly once, it is the entity of the first occurrence, and the output
preserves first-seen order across the whole result. -/
theorem unique_fetch_dedup_first_seen (rows : List Entity) (k : Nat)
    (hk : k ∈ rows.map Entity.pk) :
    Repo.run_select_stmt_for_all_with_unique_entity (Except.ok rows) =
      Except.ok (Repo.uniqueGo rows []) ∧
    ((Repo.uniqueGo rows []).filter (fun e => e.pk == k)).length = 1 ∧
    (Repo.uniqueGo rows []).find? (fun e => e.pk == k) =
      rows.find? (fun e => e.pk == k) ∧
    (Repo.uniqueGo rows []).Sublist rows := by
  refine ⟨rfl, ?_, ?_, ?_⟩
  · exact uniqueGo_filter_once k rows [] (by simp) hk
  · exact uniqueGo_find k rows [] (by simp)
  · exact uniqueGo_sublist rows []

/-- Witness for C6: primary key 7 occurs at positions 0, 2 and 4 of a
five-row result. -/
theorem unique_fetch_dedup_first_seen_witness :
    (7 ∈ ([⟨7, 1⟩, ⟨8, 2⟩, ⟨7, 3⟩, ⟨9, 4⟩, ⟨7, 5⟩] : List Entity).map
        Entity.pk) ∧
    (Repo.run_select_stmt_for_all_with_unique_entity
        (Except.ok [⟨7, 1⟩, ⟨8, 2⟩, ⟨7, 3⟩, ⟨9, 4⟩, ⟨7, 5⟩]) =
      Except.ok (Repo.uniqueGo [⟨7, 1⟩, ⟨8, 2⟩, ⟨7, 3⟩, ⟨9, 4⟩, ⟨7, 5⟩] []) ∧
    ((Repo.uniqueGo [⟨7, 1⟩, ⟨8, 2⟩, ⟨7, 3⟩, ⟨9, 4⟩, ⟨7, 5⟩] []).filter
        (fun e => e.pk == 7)).length = 1 ∧
    (Repo.uniqueGo [⟨7, 1⟩, ⟨8, 2⟩, ⟨7, 3⟩, ⟨9, 4⟩, ⟨7, 5⟩] []).find?
        (fun e => e.pk == 7) =
      ([⟨7, 1⟩, ⟨8, 2⟩, ⟨7, 3⟩, ⟨9, 4⟩, ⟨7, 5⟩] : List Entity).find?
        (fun e => e.pk == 7) ∧
    (Repo.uniqueGo [⟨7, 1⟩, ⟨8, 2⟩, ⟨7, 3⟩, ⟨9, 4⟩, ⟨7, 5⟩] []).Sublist
      [⟨7, 1⟩, ⟨8, 2⟩, ⟨7, 3⟩, ⟨9, 4⟩, ⟨7, 5⟩]) :=
  ⟨by decide,
    unique_fetch_dedup_first_seen [⟨7, 1⟩, ⟨8, 2⟩, ⟨7, 3⟩, ⟨9, 4⟩, ⟨7, 5⟩] 7
      (by decide)⟩

/-- C8 counterexample: a store failure during a select crosses the
repository boundary raw — the result is the original driver error, not an
error of the `StoreOperationError` wrapper kind. -/
theorem repo_raw_error_unwrapped_cex :
    Repo.run_select_stmt_for_one (α := Nat)
        (Except.error (PyErr.storeErr 3)) =
      Except.error (PyErr.storeErr 3) ∧
    Repo.isStoreOperationError (PyErr.storeErr 3) = false :=
  ⟨rfl, rfl⟩

/-- C8 amended: repository operations perform no wrapping at all — a
store-originated failure propagates unchanged to the caller, on the select
path and on both round-trips of the insert-with-commit path. -/
theorem repo_ops_propagate_store_errors_raw (e : PyErr) (inst : Entity)
    (refreshRes : Except PyErr Unit) :
    Repo.run_select_stmt_for_one (α := Nat) (Except.error e) =
      Except.error e ∧
    Repo.insert_instance inst (Except.error e) refreshRes = Except.error e ∧
    Repo.insert_instance inst (Except.ok ()) (Except.error e) =
      Except.error e :=
  ⟨rfl, rfl, rfl⟩

/-- C9: `from_dict` builds the instance from exactly those pairs of the
input mapping whose value is not `None` and whose key is a known attribute
of the class; unknown keys and `None` values never pass through. -/
theorem from_dict_filters_exactly (cls : PgBaseModel.ModelCls)
    (data : List (String × Option Int)) (k : String) (v : Option Int) :
    (k, v) ∈ PgBaseModel.from_dict cls data ↔
      ((k, v) ∈ data ∧ v ≠ none ∧ k ∈ cls.attrs) := by
  unfold PgBaseModel.from_dict
  rw [List.mem_filter]
  constructor
  · rintro ⟨hmem, hcond⟩
    have h12 : v.isSome = true ∧ cls.attrs.contains k = true := by
      simpa [Bool.and_eq_true] using hcond
    exact ⟨hmem, Option.isSome_iff_ne_none.mp h12.1, by simpa using h12.2⟩
  · rintro ⟨hmem, h1, h2⟩
    refine ⟨hmem, ?_⟩
    show (v.isSome && cls.attrs.contains k) = true
    rw [Bool.and_eq_true]
    exact ⟨Option.isSome_iff_ne_none.mpr h1, by simpa using h2⟩

/-- Fields not named by the payload are untouched by the assignment loop. -/
theorem applyKwargs_not_mem (k : String) :
    ∀ (kwargs : List (String × Int)) (f : PgBaseModel.Fields),
      k ∉ kwargs.map Prod.fst → PgBaseModel.applyKwargs f kwargs k = f k := by
  intro kwargs
  induction kwargs with
  | nil => intro f _; rfl
  | cons kv rest ih =>
    intro f hk
    unfold PgBaseModel.applyKwargs
    have h1 : k ∉ rest.map Prod.fst := by
      intro hm
      exact hk (by rw [List.map_cons]; exact List.mem_cons_of_mem _ hm)
    rw [ih _ h1]
    unfold PgBaseModel.setField
    rw [if_neg]
    intro hEq
    apply hk
    rw [List.map_cons, hEq]
    exact List.mem_cons_self _ _

/-- With distinct payload keys, a field named by the payload ends at the
payload's value after the assignment loop. -/
theorem applyKwargs_mem (k : String) (v : Int) :
    ∀ (kwargs : List (String × Int)) (f : PgBaseModel.Fields),
      (kwargs.map Prod.fst).Nodup → (k, v) ∈ kwargs →
      PgBaseModel.applyKwargs f kwargs k = v := by
  intro kwargs
  induction kwargs with
  | nil =>
    intro f _ hmem
    simp at hmem
  | cons kv rest ih =>
    intro f hnd hmem
    unfold PgBaseModel.applyKwargs
    have hnd2 : kv.1 ∉ rest.map Prod.fst ∧ (rest.map Prod.fst).Nodup := by
      rw [List.map_cons] at hnd
      exact List.nodup_cons.mp hnd
    rcases List.mem_cons.mp hmem with h1 | h1
    · rw [← h1]
      rw [← h1] at hnd2
      rw [applyKwargs_not_mem k rest _ hnd2.1]
      unfold PgBaseModel.setField
      rw [if_pos rfl]
    · exact ih _ hnd2.2 h1

/-- C10: `update` with a distinct-key payload sets exactly the payload's
fields to the payload's values on `self`, leaves every other field of `self`
unchanged, leaves every other object unchanged, and returns the very same
instance reference it was called on. -/
theorem update_sets_payload_frame (h : PgBaseModel.Heap) (self : Nat)
    (kwargs : List (String × Int)) (hnd : (kwargs.map Prod.fst).Nodup) :
    (PgBaseModel.update h self kwargs).2 = self ∧
    (∀ kv ∈ kwargs,
      (PgBaseModel.update h self kwargs).1.objs self kv.1 = kv.2) ∧
    (∀ k, k ∉ kwargs.map Prod.fst →
      (PgBaseModel.update h self kwargs).1.objs self k = h.objs self k) ∧
    (∀ a, a ≠ self →
      (PgBaseModel.update h self kwargs).1.objs a = h.objs a) := by
  refine ⟨rfl, ?_, ?_, ?_⟩
  · intro kv hkv
    show (if self = self then PgBaseModel.applyKwargs (h.objs self) kwargs
        else h.objs self) kv.1 = kv.2
    rw [if_pos rfl]
    exact applyKwargs_mem kv.1 kv.2 kwargs (h.objs self) hnd
      (by simpa using hkv)
  · intro k hk
    show (if self = self then PgBaseModel.applyKwargs (h.objs self) kwargs
        else h.objs self) k = h.objs self k
    rw [if_pos rfl]
    exact applyKwargs_not_mem k kwargs (h.objs self) hk
  · intro a ha
    show (if a = self then PgBaseModel.applyKwargs (h.objs a) kwargs
        else h.objs a) = h.objs a
    rw [if_neg ha]

/-- Witness for C10 at a two-field payload on object 0 of a two-object
heap. -/
theorem update_sets_payload_frame_witness :
    ((([("a", (1 : Int)), ("b", 2)] : List (String × Int)).map
        Prod.fst).Nodup) ∧
    ((PgBaseModel.update ⟨fun _ => fun _ => 0⟩ 0 [("a", 1), ("b", 2)]).2 = 0 ∧
    (∀ kv ∈ ([("a", (1 : Int)), ("b", 2)] : List (String × Int)),
      (PgBaseModel.update ⟨fun _ => fun _ => 0⟩ 0
          [("a", 1), ("b", 2)]).1.objs 0 kv.1 = kv.2) ∧
    (∀ k, k ∉ ([("a", (1 : Int)), ("b", 2)] : List (String × Int)).map
        Prod.fst →
      (PgBaseModel.update ⟨fun _ => fun _ => 0⟩ 0
          [("a", 1), ("b", 2)]).1.objs 0 k =
        (⟨fun _ => fun _ => 0⟩ : PgBaseModel.Heap).objs 0 k) ∧
    (∀ a, a ≠ 0 →
      (PgBaseModel.update ⟨fun _ => fun _ => 0⟩ 0
          [("a", 1), ("b", 2)]).1.objs a =
        (⟨fun _ => fun _ => 0⟩ : PgBaseModel.Heap).objs a)) :=
  ⟨by decide,
    update_sets_payload_frame ⟨fun _ => fun _ => 0⟩ 0 [("a", 1), ("b", 2)]
      (by decide)⟩
